import Mathlib

/-!
Shallow embedding of the screen-reader browser extension core:
sentence segmentation and click-to-position resolution (content-script
ClickHandler), content-density scoring (TextExtractor), the AudioSession
model, and the background SpeechController, together with theorems about
their behavior.  Strings are modeled as lists of characters; JavaScript
numbers used for speeds, volumes and scores are modeled as rationals;
word positions are modeled as integers.
-/

namespace Reader

/-- Characters treated as whitespace in this development: a subset of the
JavaScript whitespace class used by trim and by whitespace splitting. -/
def isJsWhitespace (c : Char) : Bool :=
  c == ' ' || c == '\t' || c == '\n' || c == '\r' || c == '\x0b' || c == '\x0c'

/-- Model of JavaScript String.prototype.trim: drop whitespace from both
ends. -/
def trimChars (l : List Char) : List Char :=
  ((l.dropWhile isJsWhitespace).reverse.dropWhile isJsWhitespace).reverse

/-- Model of JavaScript String.prototype.substring(a, b) for a less than
or equal to b: the characters at indices in [a, b). -/
def sliceChars (l : List Char) (a b : Nat) : List Char :=
  (l.take b).drop a

/-- The sentence-terminal punctuation characters recognized by the
segmenter regular expression in ClickHandler.splitIntoSentences. -/
def isTerminalPunct (c : Char) : Bool :=
  c == '.' || c == '!' || c == '?'

/-- One sentence span as produced by ClickHandler.splitIntoSentences:
the trimmed text plus the character offsets of the untrimmed span.
The source field named end is called stop here (end is a Lean keyword). -/
structure SentenceSpan where
  text : List Char
  start : Nat
  stop : Nat
deriving Repr, DecidableEq

/-- True when the next character continues a punctuation run, i.e. the
regular-expression match for a terminal-punctuation run has not ended. -/
def runContinues : List Char → Bool
  | [] => false
  | c :: _ => isTerminalPunct c

/-- The block after the scanning loop in ClickHandler.splitIntoSentences:
if text remains after the last punctuation run, emit it as a final
sentence unless it is whitespace-only. -/
def trailingSentence (full : List Char) (lastEnd : Nat) : List SentenceSpan :=
  if lastEnd < full.length then
    let rem := trimChars (sliceChars full lastEnd full.length)
    if rem.length > 0 then [⟨rem, lastEnd, full.length⟩] else []
  else []

/-- The scanning loop of ClickHandler.splitIntoSentences.  The source
iterates the global regular expression over runs of terminal punctuation;
a match of that expression ends exactly at each position whose character
is terminal punctuation and is not followed by more terminal punctuation,
which is the condition checked here one character at a time.  At each
match end e the source pushes the trimmed substring from lastEnd to e
(dropping it when empty) and sets lastEnd to e. -/
def splitGo (full : List Char) : List Char → Nat → Nat → List SentenceSpan
  | [], _, lastEnd => trailingSentence full lastEnd
  | c :: cs, i, lastEnd =>
    if isTerminalPunct c then
      if runContinues cs then
        splitGo full cs (i + 1) lastEnd
      else
        let e := i + 1
        let stext := trimChars (sliceChars full lastEnd e)
        let rest := splitGo full cs e e
        if stext.length > 0 then ⟨stext, lastEnd, e⟩ :: rest else rest
    else
      splitGo full cs (i + 1) lastEnd

/-- ClickHandler.splitIntoSentences. -/
def splitIntoSentences (text : List Char) : List SentenceSpan :=
  splitGo text text 0 0

/-- The end positions of the maximal runs of terminal punctuation in the
remaining character list, where the first remaining character sits at
absolute index i.  This is the claim-side notion of sentence boundary:
each run of the characters period, exclamation mark and question mark
ends a sentence at the position just after the run. -/
def punctRunEnds : List Char → Nat → List Nat
  | [], _ => []
  | c :: cs, i =>
    if isTerminalPunct c then
      if runContinues cs then punctRunEnds cs (i + 1)
      else (i + 1) :: punctRunEnds cs (i + 1)
    else punctRunEnds cs (i + 1)

/-- Claim-side segmentation, written from the specification text: given
the boundary positions (the ends of the punctuation runs), each sentence
is the trimmed substring from the end of the previous run (inclusive of
the following text) through the end of the current run, whitespace-only
spans are dropped, and any trailing text after the last run is emitted
as a final sentence. -/
def segmentFromRuns (full : List Char) : List Nat → Nat → List SentenceSpan
  | [], lastEnd => trailingSentence full lastEnd
  | e :: es, lastEnd =>
    let stext := trimChars (sliceChars full lastEnd e)
    let rest := segmentFromRuns full es e
    if stext.length > 0 then ⟨stext, lastEnd, e⟩ :: rest else rest

/-- Claim-side segmenter: sentences derived from the punctuation-run
boundaries of the whole text. -/
def segmentSpec (text : List Char) : List SentenceSpan :=
  segmentFromRuns text (punctRunEnds text 0) 0

/-! ## Click-to-position resolution (ClickHandler.extractTextFromClick) -/
/-- Model of JavaScript String.prototype.includes: substring test. -/
def containsSub (hay needle : List Char) : Bool :=
  match hay with
  | [] => needle.isEmpty
  | c :: t => needle.isPrefixOf (c :: t) || containsSub t needle

/-- The per-sentence match test in ClickHandler.extractTextFromClick:
the sentence text trimmed equals the clicked text trimmed, or the
sentence text contains the trimmed clicked text, or the trimmed clicked
text contains the trimmed sentence text. -/
def sentenceMatchesClick (clicked : List Char) (s : SentenceSpan) : Bool :=
  trimChars s.text == trimChars clicked ||
  containsSub s.text (trimChars clicked) ||
  containsSub (trimChars clicked) (trimChars s.text)

/-- The search loop in ClickHandler.extractTextFromClick: scan the
sentences in order and stop at the first match; the result is that
sentence index, or none when no sentence matches. -/
def findMatchIndexGo (clicked : List Char) :
    List SentenceSpan → Nat → Option Nat
  | [], _ => none
  | s :: rest, i =>
    if sentenceMatchesClick clicked s then some i
    else findMatchIndexGo clicked rest (i + 1)

/-- startSentenceIndex as computed by ClickHandler.extractTextFromClick:
initialized to 0 and replaced by the first matching sentence index. -/
def resolveStartIndex (sentences : List SentenceSpan) (clicked : List Char) : Nat :=
  (findMatchIndexGo clicked sentences 0).getD 0

/-- Model of Array.prototype.join with a single space. -/
def joinSpaces (parts : List (List Char)) : List Char :=
  List.intercalate [' '] parts

/-- Result of click resolution: the chosen start sentence index (stored
in currentReadingInfo by the source) and the returned remaining text. -/
structure ResolveResult where
  startSentenceIndex : Nat
  remainingText : List Char
deriving Repr, DecidableEq

/-- ClickHandler.extractTextFromClick, abstracted over the DOM: the
extracted article text and the clicked sentence text computed by
getClickedSentenceText (none models a null result).  A null or empty
clicked text takes the setupFullArticleReading path, which records start
index 0 and returns the full article text.  With a nonempty clicked
text but empty article text the source falls back to raw DOM element
extraction, which is outside this model (none).  Otherwise the article
is segmented, the first matching sentence index is selected (default 0),
and the sentences from that index on are joined with single spaces. -/
def extractTextFromClick (fullArticleText : List Char)
    (clicked : Option (List Char)) : Option ResolveResult :=
  match clicked with
  | none =>
    -- setupFullArticleReading: with a null article it returns the empty
    -- string, which coincides with returning the article itself here.
    if fullArticleText.isEmpty then some ⟨0, []⟩
    else some ⟨0, fullArticleText⟩
  | some c =>
    if c.isEmpty then
      if fullArticleText.isEmpty then some ⟨0, []⟩
      else some ⟨0, fullArticleText⟩
    else if fullArticleText.isEmpty then none
    else
      let allSentences := splitIntoSentences fullArticleText
      let idx := resolveStartIndex allSentences c
      some ⟨idx, joinSpaces ((allSentences.drop idx).map SentenceSpan.text)⟩

/-! ## AudioSession (src/lib/models/AudioSession.js) -/
/-- The error conditions raised by the session model and the speech
controller, one constructor per distinct JavaScript error. -/
inductive JsError where
  | missingContentId
  | missingPageUrl
  | missingText
  | missingTabId
  | speedOutOfRange
  | volumeOutOfRange
  | sessionNotFound
  | invalidState
  | speechNotSupported
  | voiceNotAvailable
  | textProcessing
  | sessionLimit (limit : Nat)
deriving Repr, DecidableEq

/-- JavaScript word characters: letters, digits and underscore (the
regular-expression word class, ASCII). -/
def isJsWordChar (c : Char) : Bool :=
  (('a' ≤ c && c ≤ 'z') || ('A' ≤ c && c ≤ 'Z') || ('0' ≤ c && c ≤ '9') || c == '_')

/-- Helper for tokensWs: acc holds the characters of the token currently
being read, in reverse order. -/
def tokensWsGo : List Char → List Char → List (List Char)
  | acc, [] => if acc.isEmpty then [] else [acc.reverse]
  | acc, c :: cs =>
    if isJsWhitespace c then
      if acc.isEmpty then tokensWsGo [] cs
      else acc.reverse :: tokensWsGo [] cs
    else tokensWsGo (c :: acc) cs

/-- The maximal whitespace-free tokens of a character list.  Splitting a
JavaScript string on a whitespace run produces these tokens, possibly
with empty fragments at the ends; AudioSession drops those empty
fragments with its following filter, so they are omitted here. -/
def tokensWs (l : List Char) : List (List Char) :=
  tokensWsGo [] l

/-- AudioSession private extractWords: split on whitespace, trim each
token, drop empties, strip every character that is neither a word
character nor whitespace, and drop tokens that become empty. -/
def extractWords (text : List Char) : List (List Char) :=
  ((((tokensWs text).map trimChars).filter (fun w => w.length > 0)).map
      (fun w => w.filter (fun c => isJsWordChar c || isJsWhitespace c))).filter
    (fun w => w.length > 0)

/-- The position clamp applied by the AudioSession constructor and by
updateState: the maximum of 0 and the minimum of the given position and
totalWords minus one. -/
def clampPosition (totalWords : Nat) (p : Int) : Int :=
  max 0 (min p ((totalWords : Int) - 1))

/-- AudioSession state.  Timestamps are modeled as natural-number
instants supplied by the caller; the random session identifier is a
natural number supplied at construction. -/
structure AudioSession where
  sessionId : Nat
  contentId : Nat
  pageUrl : List Char
  tabId : Int
  text : List Char
  words : List (List Char)
  totalWords : Nat
  currentPosition : Int
  isPlaying : Bool
  isPaused : Bool
  speed : ℚ
  volume : ℚ
  createdAt : Nat
  lastActiveAt : Nat
deriving Repr, DecidableEq, Inhabited

/-- AudioSession private validateSpeed (speeds are modeled as rationals,
so the not-a-number check cannot fire; mkRat 1 2 is the source literal
0.5). -/
def validateSpeedQ (v : ℚ) : Except JsError ℚ :=
  if v < mkRat 1 2 ∨ v > 2 then .error .speedOutOfRange else .ok v

/-- AudioSession private validateVolume. -/
def validateVolumeQ (v : ℚ) : Except JsError ℚ :=
  if v < 0 ∨ v > 1 then .error .volumeOutOfRange else .ok v

/-- The AudioSession constructor.  Required options are modeled as
Option values, none standing for undefined; the falsiness tests on
contentId and pageUrl and text map to none-or-empty tests.  The new
session identifier and the construction instant are parameters. -/
def mkAudioSession (contentId : Option Nat) (pageUrl : Option (List Char))
    (text : List Char) (startWordIndex : Int) (speed volume : ℚ)
    (tabId : Option Int) (newSessionId : Nat) (now : Nat) :
    Except JsError AudioSession :=
  if contentId.isNone then .error .missingContentId
  else if pageUrl.isNone || pageUrl == some [] then .error .missingPageUrl
  else if text.isEmpty then .error .missingText
  else if tabId.isNone then .error .missingTabId
  else
    let words := extractWords text
    let totalWords := words.length
    match validateSpeedQ speed with
    | .error e => .error e
    | .ok sp =>
      match validateVolumeQ volume with
      | .error e => .error e
      | .ok vol =>
        .ok {
          sessionId := newSessionId
          contentId := contentId.getD 0
          pageUrl := pageUrl.getD []
          tabId := tabId.getD 0
          text := text
          words := words
          totalWords := totalWords
          currentPosition := max 0 (min startWordIndex ((totalWords : Int) - 1))
          isPlaying := false
          isPaused := false
          speed := sp
          volume := vol
          createdAt := now
          lastActiveAt := now }

/-- The argument object of AudioSession.updateState: each field is
either supplied or undefined. -/
structure StateUpdate where
  isPlaying : Option Bool
  isPaused : Option Bool
  currentPosition : Option Int
  speed : Option ℚ
  volume : Option ℚ
deriving Repr, DecidableEq

/-- The speed branch of updateState: validateSpeed throws on an
out-of-range value, leaving the fields mutated so far in place. -/
def applySpeedUpdate (s : AudioSession) : Option ℚ → AudioSession × Option JsError
  | none => (s, none)
  | some v =>
    match validateSpeedQ v with
    | .error e => (s, some e)
    | .ok sp => ({ s with speed := sp }, none)

/-- The volume branch of updateState. -/
def applyVolumeUpdate (s : AudioSession) : Option ℚ → AudioSession × Option JsError
  | none => (s, none)
  | some v =>
    match validateVolumeQ v with
    | .error e => (s, some e)
    | .ok vol => ({ s with volume := vol }, none)

/-- AudioSession.updateState.  Fields are mutated in source order; a
supplied currentPosition is clamped between 0 and totalWords minus one;
an invalid speed or volume throws, so mutations made before the throw
remain applied and lastActiveAt is not refreshed. -/
def AudioSession.updateState (s : AudioSession) (u : StateUpdate) (now : Nat) :
    AudioSession × Option JsError :=
  let s1 := match u.isPlaying with
    | some b => { s with isPlaying := b }
    | none => s
  let s2 := match u.isPaused with
    | some b => { s1 with isPaused := b }
    | none => s1
  let s3 := match u.currentPosition with
    | some p => { s2 with currentPosition := clampPosition s2.totalWords p }
    | none => s2
  let r4 := applySpeedUpdate s3 u.speed
  match r4.2 with
  | some e => (r4.1, some e)
  | none =>
    let r5 := applyVolumeUpdate r4.1 u.volume
    match r5.2 with
    | some e => (r5.1, some e)
    | none => ({ r5.1 with lastActiveAt := now }, none)

/-- AudioSession.getRemainingText: the words from the current position
joined by single spaces, empty once the position has passed the last
word.  Reachable positions are never negative, so the integer position
converts to the slice start directly. -/
def AudioSession.getRemainingText (s : AudioSession) : List Char :=
  if s.currentPosition ≥ (s.words.length : Int) then []
  else joinSpaces (s.words.drop s.currentPosition.toNat)

/-- Position invariant maintained by the constructor and by updateState:
the current position is between 0 and totalWords minus one, or 0 when
the session has no words. -/
def PosInv (s : AudioSession) : Prop :=
  0 ≤ s.currentPosition ∧ s.currentPosition ≤ max ((s.totalWords : Int) - 1) 0

instance (s : AudioSession) : Decidable (PosInv s) :=
  inferInstanceAs (Decidable (_ ∧ _))

/-- A sequence of updateState calls, each with its own instant. -/
def applyUpdates (s : AudioSession) (us : List (StateUpdate × Nat)) : AudioSession :=
  us.foldl (fun acc u => (acc.updateState u.1 u.2).1) s

/-- A concrete session used to instantiate hypotheses of the session
theorems: built by the constructor from a three-word text. -/
def sampleSession : AudioSession :=
  ((mkAudioSession (some 1) (some (("page").toList)) (("hello brave world").toList)
    0 1 1 (some 0) 7 0).toOption).getD default

/-! ## Boundary callback path (SpeechController) -/
/-- Helper counting the maximal whitespace runs of the remaining
characters; the flag records whether a run is currently open. -/
def wsRunCountGo : Bool → List Char → Nat
  | _, [] => 0
  | inRun, c :: cs =>
    if isJsWhitespace c then
      if inRun then wsRunCountGo true cs
      else 1 + wsRunCountGo true cs
    else wsRunCountGo false cs

/-- The length of the array produced by splitting a JavaScript string on
a whitespace-run regular expression: one more than the number of
separator matches, counting the empty fragments at the ends. -/
def jsSplitWsLen (l : List Char) : Nat :=
  wsRunCountGo false l + 1

/-- SpeechController private calculateWordIndex: the session position
plus the number of whitespace-separated words consumed in the remaining
text before the boundary character index (an explicitly approximate
recomputation). -/
def calculateWordIndex (charIndex : Nat) (s : AudioSession) : Int :=
  let textUpToChar := (s.getRemainingText).take charIndex
  let wordsBeforeChar : Int := (jsSplitWsLen textUpToChar : Int) - 1
  s.currentPosition + max 0 wordsBeforeChar

/-- The utterance onboundary handler: on a word boundary event the
session position is recomputed by calculateWordIndex and stored through
updateState; other boundary events are ignored. -/
def onUtteranceBoundary (s : AudioSession) (isWordBoundary : Bool)
    (charIndex : Nat) (now : Nat) : AudioSession :=
  if isWordBoundary then
    (s.updateState ⟨none, none, some (calculateWordIndex charIndex s), none, none⟩ now).1
  else s

/-- A sequence of boundary events, each a word-boundary flag, a
character index and an instant. -/
def applyBoundaries (s : AudioSession) (events : List (Bool × Nat × Nat)) : AudioSession :=
  events.foldl (fun acc e => onUtteranceBoundary acc e.1 e.2.1 e.2.2) s

/-! ## SpeechController (src/background/speech-controller.js) -/
/-- The synchronous state of a SpeechSynthesisUtterance that the
controller constructs: its text, rate and volume. -/
structure Utterance where
  text : List Char
  rate : ℚ
  volume : ℚ
deriving Repr, DecidableEq

/-- SpeechController state: the session map (a JavaScript Map modeled as
an association list in insertion order), the session limit, and the
current utterance and session identifier that represent engine focus. -/
structure SpeechController where
  activeSessions : List (Nat × AudioSession)
  maxConcurrentSessions : Nat
  currentUtterance : Option Utterance
  currentSessionId : Option Nat
deriving Repr, DecidableEq

/-- The SpeechController constructor. -/
def mkSpeechController : SpeechController :=
  { activeSessions := [], maxConcurrentSessions := 10,
    currentUtterance := none, currentSessionId := none }

/-- Map.get on the association list. -/
def lookupAssoc (l : List (Nat × AudioSession)) (k : Nat) : Option AudioSession :=
  (l.find? (fun p => p.1 == k)).map Prod.snd

/-- Map.set on the association list: replace the entry when the key is
present, append otherwise. -/
def setAssoc : List (Nat × AudioSession) → Nat → AudioSession → List (Nat × AudioSession)
  | [], k, v => [(k, v)]
  | (k', v') :: rest, k, v =>
    if k' == k then (k, v) :: rest else (k', v') :: setAssoc rest k v

/-- In-place mutation of the session object held by the map: replace the
entry when the key is present, leave the list unchanged otherwise. -/
def updateAssoc : List (Nat × AudioSession) → Nat → AudioSession → List (Nat × AudioSession)
  | [], _, _ => []
  | (k', v') :: rest, k, v =>
    if k' == k then (k, v) :: rest else (k', v') :: updateAssoc rest k v

/-- Map.delete on the association list. -/
def removeAssoc : List (Nat × AudioSession) → Nat → List (Nat × AudioSession)
  | [], _ => []
  | (k', v') :: rest, k =>
    if k' == k then rest else (k', v') :: removeAssoc rest k

/-- SpeechController private getSession wrapper result. -/
def lookupSession (ctrl : SpeechController) (sid : Nat) : Option AudioSession :=
  lookupAssoc ctrl.activeSessions sid

/-- SpeechController private startSpeechSynthesis, up to its synchronous
effects: reject an empty remaining text with TextProcessingError,
otherwise build the utterance from the remaining text with the session's
speed and volume, record it and the session as the engine focus, and
submit it to the external engine (the submission itself and the voice
argument have no synchronous state). -/
def startSpeechSynthesis (ctrl : SpeechController) (s : AudioSession) :
    SpeechController × Option JsError :=
  let textToSpeak := s.getRemainingText
  if textToSpeak.isEmpty then (ctrl, some .textProcessing)
  else
    ({ ctrl with
        currentUtterance := some ⟨textToSpeak, s.speed, s.volume⟩,
        currentSessionId := some s.sessionId }, none)

/-- SpeechController.pauseSpeech: look the session up (SessionNotFound
when absent), ask the engine to pause when this session holds focus (no
synchronous state), and mark the session paused. -/
def pauseSpeech (ctrl : SpeechController) (sid : Nat) (now : Nat) :
    SpeechController × Option JsError :=
  match lookupSession ctrl sid with
  | none => (ctrl, some .sessionNotFound)
  | some s =>
    let r := s.updateState ⟨some false, some true, none, none, none⟩ now
    ({ ctrl with activeSessions := updateAssoc ctrl.activeSessions sid r.1 }, r.2)

/-- SpeechController.resumeSpeech: invalid state unless the session is
paused; when this session holds focus and the engine reports paused, the
engine resumes, otherwise synthesis restarts from the remaining text;
then the session is marked playing. -/
def resumeSpeech (ctrl : SpeechController) (sid : Nat) (enginePaused : Bool)
    (now : Nat) : SpeechController × Option JsError :=
  match lookupSession ctrl sid with
  | none => (ctrl, some .sessionNotFound)
  | some s =>
    if !s.isPaused then (ctrl, some .invalidState)
    else if ctrl.currentSessionId == some sid && enginePaused then
      let r := s.updateState ⟨some true, some false, none, none, none⟩ now
      ({ ctrl with activeSessions := updateAssoc ctrl.activeSessions sid r.1 }, r.2)
    else
      let r1 := startSpeechSynthesis ctrl s
      match r1.2 with
      | some e => (r1.1, some e)
      | none =>
        let r := s.updateState ⟨some true, some false, none, none, none⟩ now
        ({ r1.1 with activeSessions := updateAssoc r1.1.activeSessions sid r.1 }, r.2)

/-- SpeechController.stopSpeech: release engine focus when this session
holds it, and remove the session from the map. -/
def stopSpeech (ctrl : SpeechController) (sid : Nat) :
    SpeechController × Option JsError :=
  match lookupSession ctrl sid with
  | none => (ctrl, some .sessionNotFound)
  | some _ =>
    let ctrl1 :=
      if ctrl.currentSessionId == some sid then
        { ctrl with currentUtterance := none, currentSessionId := none }
      else ctrl
    ({ ctrl1 with activeSessions := removeAssoc ctrl1.activeSessions sid }, none)

/-- SpeechController.setSpeed: reject a speed outside the closed range
from one half to two before touching the session (mkRat 1 2 is the
source literal 0.5); otherwise store the speed, and when this session
holds engine focus update the live utterance rate, cancelling and
resubmitting when the engine is actively speaking. -/
def setSpeed (ctrl : SpeechController) (sid : Nat) (speed : ℚ)
    (engineSpeaking enginePaused : Bool) (now : Nat) :
    SpeechController × Option JsError :=
  match lookupSession ctrl sid with
  | none => (ctrl, some .sessionNotFound)
  | some s =>
    if speed < mkRat 1 2 ∨ speed > 2 then (ctrl, some .speedOutOfRange)
    else
      let r := s.updateState ⟨none, none, none, some speed, none⟩ now
      let ctrl1 := { ctrl with activeSessions := updateAssoc ctrl.activeSessions sid r.1 }
      if ctrl1.currentSessionId == some sid && ctrl1.currentUtterance.isSome then
        let ctrl2 := { ctrl1 with
          currentUtterance := ctrl1.currentUtterance.map (fun u => { u with rate := speed }) }
        if engineSpeaking && !enginePaused then
          if r.1.isPlaying then startSpeechSynthesis ctrl2 r.1
          else (ctrl2, none)
        else (ctrl2, none)
      else (ctrl1, none)

/-- SpeechController.setVolume: reject a volume outside the closed range
from zero to one before touching the session; otherwise store the volume
and, when this session holds engine focus, update the live utterance
volume. -/
def setVolume (ctrl : SpeechController) (sid : Nat) (volume : ℚ) (now : Nat) :
    SpeechController × Option JsError :=
  match lookupSession ctrl sid with
  | none => (ctrl, some .sessionNotFound)
  | some s =>
    if volume < 0 ∨ volume > 1 then (ctrl, some .volumeOutOfRange)
    else
      let r := s.updateState ⟨none, none, none, none, some volume⟩ now
      let ctrl1 := { ctrl with activeSessions := updateAssoc ctrl.activeSessions sid r.1 }
      if ctrl1.currentSessionId == some sid && ctrl1.currentUtterance.isSome then
        ({ ctrl1 with
            currentUtterance := ctrl1.currentUtterance.map (fun u => { u with volume := volume }) },
          none)
      else (ctrl1, none)

/-- The request object accepted by SpeechController.startSpeech; none
models an undefined field. -/
structure StartSpeechRequest where
  contentId : Option Nat
  pageUrl : Option (List Char)
  text : Option (List Char)
  startWordIndex : Option Int
  speed : Option ℚ
  volume : Option ℚ
  tabId : Option Int
deriving Repr, DecidableEq

/-- SpeechController private validateStartRequest: contentId, text and
tabId are required; a missing or empty text is falsy. -/
def validateStartRequest (r : StartSpeechRequest) : Option JsError :=
  if r.contentId.isNone then some .missingContentId
  else if r.text.isNone || r.text == some [] then some .missingText
  else if r.tabId.isNone then some .missingTabId
  else none

/-- The or-default idiom request.pageUrl or unknown: an absent or empty
(falsy) page url falls back to the string unknown. -/
def defaultPageUrl (o : Option (List Char)) : List Char :=
  match o with
  | some u => if u.isEmpty then ("unknown").toList else u
  | none => ("unknown").toList

/-- The or-default idiom for speed and volume: an absent or zero (falsy)
value falls back to one. -/
def defaultQ1 (o : Option ℚ) : ℚ :=
  match o with
  | some v => if v == 0 then 1 else v
  | none => 1

/-- SpeechController.startSpeech.  Checks run in source order: request
validation, speech support, the session limit against the current map
size, voice availability (the asynchronous voice lookup abstracted to
its outcome), empty-text rejection; then the session is constructed and
stored, synthesis is started, and the session is marked playing.  Any
error thrown inside the trailing try block is wrapped as a
TextProcessingError; a session already stored when synthesis fails stays
in the map, as in the source. -/
def startSpeech (ctrl : SpeechController) (r : StartSpeechRequest)
    (speechSupported voiceAvailable : Bool) (newSessionId : Nat) (now : Nat) :
    SpeechController × Except JsError AudioSession :=
  match validateStartRequest r with
  | some e => (ctrl, .error e)
  | none =>
    if !speechSupported then (ctrl, .error .speechNotSupported)
    else if ctrl.activeSessions.length ≥ ctrl.maxConcurrentSessions then
      (ctrl, .error (.sessionLimit ctrl.maxConcurrentSessions))
    else if !voiceAvailable then (ctrl, .error .voiceNotAvailable)
    else
      let text := r.text.getD []
      if (trimChars text).isEmpty then (ctrl, .error .textProcessing)
      else
        match mkAudioSession r.contentId (some (defaultPageUrl r.pageUrl)) text
            (r.startWordIndex.getD 0) (defaultQ1 r.speed) (defaultQ1 r.volume)
            r.tabId newSessionId now with
        | .error _ => (ctrl, .error .textProcessing)
        | .ok session =>
          let ctrl1 := { ctrl with
            activeSessions := setAssoc ctrl.activeSessions session.sessionId session }
          let r1 := startSpeechSynthesis ctrl1 session
          match r1.2 with
          | some _ => (r1.1, .error .textProcessing)
          | none =>
            let r2 := session.updateState ⟨some true, some false, none, none, none⟩ now
            ({ r1.1 with
                activeSessions := updateAssoc r1.1.activeSessions session.sessionId r2.1 },
              .ok r2.1)

/-- The utterance onend handler: mark the captured session not playing
and not paused with its position set to totalWords (which updateState
then clamps), and release engine focus when this session holds it. -/
def onUtteranceEnd (ctrl : SpeechController) (s : AudioSession) (now : Nat) :
    SpeechController × AudioSession :=
  let r := s.updateState ⟨some false, some false, some ((s.totalWords : Nat) : Int), none, none⟩ now
  let ctrl1 := { ctrl with activeSessions := updateAssoc ctrl.activeSessions s.sessionId r.1 }
  let ctrl2 :=
    if ctrl1.currentSessionId == some s.sessionId then
      { ctrl1 with currentUtterance := none, currentSessionId := none }
    else ctrl1
  (ctrl2, r.1)

/-- A controller in which sampleSession holds engine focus. -/
def focusController : SpeechController :=
  { activeSessions := [(7, sampleSession)], maxConcurrentSessions := 10,
    currentUtterance := some ⟨sampleSession.getRemainingText, 1, 1⟩,
    currentSessionId := some 7 }

/-- A controller holding exactly one registered session. -/
def oneSessionController : SpeechController :=
  { activeSessions := [(7, sampleSession)], maxConcurrentSessions := 10,
    currentUtterance := none, currentSessionId := none }

/-- A controller at its session capacity of 10. -/
def tenSessionController : SpeechController :=
  { activeSessions := (List.range 10).map (fun i => (i, sampleSession)),
    maxConcurrentSessions := 10, currentUtterance := none, currentSessionId := none }

/-- A valid start request. -/
def sampleRequest : StartSpeechRequest :=
  { contentId := some 1, pageUrl := some (("page").toList),
    text := some (("hello").toList), startWordIndex := none, speed := none,
    volume := none, tabId := some 0 }

/-! ## Content density score (TextExtractor private calculateContentScore) -/
/-- TextExtractor private calculateContentScore, abstracted over the
candidate element by its trimmed text length, paragraph count, summed
link text length and child element count.  The score accumulates in
source order: text length over 25, plus 25 per paragraph, multiplied by
one minus the link density when the link density exceeds one half,
halved for a crowded low-density container, and clamped below at 0
(mkRat 1 2 is the source literal 0.5). -/
def calculateContentScore (textLength paragraphCount linkTextLength childElements : Nat) : ℚ :=
  let score1 : ℚ := 0 + (textLength : ℚ) / 25
  let score2 : ℚ := score1 + (paragraphCount : ℚ) * 25
  let linkDensity : ℚ :=
    if textLength > 0 then (linkTextLength : ℚ) / (textLength : ℚ) else 0
  let score3 : ℚ :=
    if linkDensity > mkRat 1 2 then score2 * (1 - linkDensity) else score2
  let score4 : ℚ :=
    if childElements > 20 ∧ (textLength : ℚ) / (childElements : ℚ) < 50 then
      score3 * mkRat 1 2
    else score3
  max 0 score4

/-- The score formula exactly as the claim words it: textLength over 25
plus 25 times the paragraph count, multiplied by one minus linkDensity
when linkDensity (linkTextLength over textLength) exceeds one half, then
halved when the element has more than 20 children and textLength over
childCount is below 50 — with no clamp at zero. -/
def contentScoreClaimFormula (textLength paragraphCount linkTextLength childElements : Nat) : ℚ :=
  let base : ℚ := (textLength : ℚ) / 25 + 25 * (paragraphCount : ℚ)
  let linkDensity : ℚ := (linkTextLength : ℚ) / (textLength : ℚ)
  let afterLink : ℚ :=
    if linkDensity > mkRat 1 2 then base * (1 - linkDensity) else base
  if childElements > 20 ∧ (textLength : ℚ) / (childElements : ℚ) < 50 then
    afterLink * mkRat 1 2
  else afterLink

theorem splitGo_eq_segmentFromRuns (full : List Char) :
    ∀ (rem : List Char) (i lastEnd : Nat),
      splitGo full rem i lastEnd = segmentFromRuns full (punctRunEnds rem i) lastEnd := by
  intro rem
  induction rem with
  | nil => intro i lastEnd; rfl
  | cons c cs ih =>
    intro i lastEnd
    by_cases hc : isTerminalPunct c
    · by_cases hr : runContinues cs
      · simp [splitGo, punctRunEnds, hc, hr, ih]
      · simp [splitGo, punctRunEnds, hc, hr, segmentFromRuns, ih]
    · simp [splitGo, punctRunEnds, hc, ih]

/-- C2.  Sentence segmentation: for every input string the segmenter
returns exactly the spans described by the specification: each run of
the characters period, exclamation mark and question mark ends a
sentence, each sentence text is the trimmed substring from the end of
the previous punctuation run through the end of the current run,
trailing text after the last run is emitted as a final sentence, and
whitespace-only spans are dropped. -/
theorem splitIntoSentences_eq_segmentSpec (text : List Char) :
    splitIntoSentences text = segmentSpec text :=
  splitGo_eq_segmentFromRuns text text 0 0

theorem splitIntoSentences_three_sentence_scenario :
    (splitIntoSentences ("First sentence here. Second one follows. Third ends it!").toList).map
      SentenceSpan.text =
    [("First sentence here.").toList, ("Second one follows.").toList,
     ("Third ends it!").toList] := by decide

theorem splitIntoSentences_repeated_punctuation :
    (splitIntoSentences ("Wait?! Really... yes").toList).map SentenceSpan.text =
    [("Wait?!").toList, ("Really...").toList, ("yes").toList] := by decide

theorem splitIntoSentences_hi_scenario :
    (splitIntoSentences ("Hi. A Hi. there.").toList).map SentenceSpan.text =
    [("Hi.").toList, ("A Hi.").toList, ("there.").toList] := by decide

/-- C1 counterexample.  The clicked text exactly equals the article
sentence at index 1, yet resolution returns startSentenceIndex 0: the
containment test (clicked text contains the sentence text) already
succeeds at index 0 and the first match wins. -/
theorem extractTextFromClick_not_exact_index :
    ((splitIntoSentences ("Hi. A Hi. there.").toList).map SentenceSpan.text).get? 1 =
      some (("A Hi.").toList) ∧
    (extractTextFromClick ("Hi. A Hi. there.").toList
        (some (("A Hi.").toList))).map ResolveResult.startSentenceIndex = some 0 ∧
    (0 : Nat) ≠ 1 := by decide

theorem findMatchIndexGo_eq_none (clicked : List Char) :
    ∀ (ss : List SentenceSpan) (acc : Nat),
      (∀ s ∈ ss, sentenceMatchesClick clicked s = false) →
      findMatchIndexGo clicked ss acc = none := by
  intro ss
  induction ss with
  | nil => intro acc _; rfl
  | cons s rest ih =>
    intro acc h
    have hs : sentenceMatchesClick clicked s = false := h s (List.mem_cons_self s rest)
    simp [findMatchIndexGo, hs]
    exact ih (acc + 1) fun t ht => h t (List.mem_cons_of_mem s ht)

theorem findMatchIndexGo_eq_first (clicked : List Char) :
    ∀ (ss : List SentenceSpan) (acc i : Nat) (hi : i < ss.length),
      sentenceMatchesClick clicked (ss.get ⟨i, hi⟩) = true →
      (∀ j (hj : j < i),
        sentenceMatchesClick clicked (ss.get ⟨j, Nat.lt_trans hj hi⟩) = false) →
      findMatchIndexGo clicked ss acc = some (acc + i) := by
  intro ss
  induction ss with
  | nil => intro acc i hi; exact absurd hi (Nat.not_lt_zero i)
  | cons s rest ih =>
    intro acc i hi hmatch hbefore
    cases i with
    | zero => simp_all [findMatchIndexGo]
    | succ k =>
      have h0 : sentenceMatchesClick clicked s = false := by
        have := hbefore 0 (Nat.succ_pos k)
        simpa using this
      have hk : k < rest.length := Nat.lt_of_succ_lt_succ hi
      have hrec := ih (acc + 1) k hk (by simpa using hmatch)
        (fun j hj => by
          have := hbefore (j + 1) (Nat.succ_lt_succ hj)
          simpa using this)
      simp [findMatchIndexGo, h0, hrec]
      omega

/-- C1 (amended).  Click-to-position resolution: with a nonempty article
text and a nonempty clicked text, resolution returns the index of the
first sentence matching the clicked text under the resolver's
equality-or-containment test (in particular the index of an exact match
is returned whenever no earlier sentence matches), together with all
sentences from that index joined by single spaces; when no sentence
matches, it returns startSentenceIndex 0 and all of the article's
sentences joined by single spaces; a null clicked text yields
startSentenceIndex 0 and the whole article text; and resolution never
fails on these paths. -/
theorem extractTextFromClick_resolution (article clicked : List Char)
    (ha : article ≠ []) (hc : clicked ≠ []) :
    (∀ i (hi : i < (splitIntoSentences article).length),
      sentenceMatchesClick clicked ((splitIntoSentences article).get ⟨i, hi⟩) = true →
      (∀ j (hj : j < i),
        sentenceMatchesClick clicked
          ((splitIntoSentences article).get ⟨j, Nat.lt_trans hj hi⟩) = false) →
      extractTextFromClick article (some clicked) =
        some ⟨i, joinSpaces (((splitIntoSentences article).drop i).map SentenceSpan.text)⟩)
    ∧ ((∀ s ∈ splitIntoSentences article, sentenceMatchesClick clicked s = false) →
      extractTextFromClick article (some clicked) =
        some ⟨0, joinSpaces ((splitIntoSentences article).map SentenceSpan.text)⟩)
    ∧ extractTextFromClick article none = some ⟨0, article⟩ := by
  obtain ⟨a, as, rfl⟩ : ∃ a as, article = a :: as := by
    cases article with
    | nil => exact absurd rfl ha
    | cons a as => exact ⟨a, as, rfl⟩
  obtain ⟨c, cs, rfl⟩ : ∃ c cs, clicked = c :: cs := by
    cases clicked with
    | nil => exact absurd rfl hc
    | cons c cs => exact ⟨c, cs, rfl⟩
  refine ⟨?_, ?_, ?_⟩
  · intro i hi hmatch hbefore
    have hfind := findMatchIndexGo_eq_first (c :: cs) (splitIntoSentences (a :: as))
      0 i hi hmatch hbefore
    simp [extractTextFromClick, resolveStartIndex, hfind]
  · intro hnone
    have hfind := findMatchIndexGo_eq_none (c :: cs) (splitIntoSentences (a :: as)) 0 hnone
    simp [extractTextFromClick, resolveStartIndex, hfind]
  · rfl

theorem extractTextFromClick_resolution_witness :
    extractTextFromClick (("Aa. Bb.").toList) (some (("Bb.").toList)) =
      some ⟨1, joinSpaces (((splitIntoSentences (("Aa. Bb.").toList)).drop 1).map
        SentenceSpan.text)⟩ :=
  (extractTextFromClick_resolution (("Aa. Bb.").toList) (("Bb.").toList)
      (by decide) (by decide)).1 1 (by decide) (by decide)
    (fun j hj => by
      have hj0 : j = 0 := by omega
      subst hj0
      show sentenceMatchesClick (("Bb.").toList)
        ((splitIntoSentences (("Aa. Bb.").toList)).get ⟨0, by decide⟩) = false
      decide)

theorem applySpeedUpdate_fields (s : AudioSession) (o : Option ℚ) :
    ((applySpeedUpdate s o).1).totalWords = s.totalWords ∧
    ((applySpeedUpdate s o).1).currentPosition = s.currentPosition ∧
    ((applySpeedUpdate s o).1).isPlaying = s.isPlaying ∧
    ((applySpeedUpdate s o).1).isPaused = s.isPaused ∧
    ((applySpeedUpdate s o).1).words = s.words := by
  cases o with
  | none => exact ⟨rfl, rfl, rfl, rfl, rfl⟩
  | some v =>
    simp only [applySpeedUpdate, validateSpeedQ]
    split <;> simp

theorem applyVolumeUpdate_fields (s : AudioSession) (o : Option ℚ) :
    ((applyVolumeUpdate s o).1).totalWords = s.totalWords ∧
    ((applyVolumeUpdate s o).1).currentPosition = s.currentPosition ∧
    ((applyVolumeUpdate s o).1).isPlaying = s.isPlaying ∧
    ((applyVolumeUpdate s o).1).isPaused = s.isPaused ∧
    ((applyVolumeUpdate s o).1).words = s.words := by
  cases o with
  | none => exact ⟨rfl, rfl, rfl, rfl, rfl⟩
  | some v =>
    simp only [applyVolumeUpdate, validateVolumeQ]
    split <;> simp

theorem updateState_fields (s : AudioSession) (u : StateUpdate) (now : Nat) :
    ((s.updateState u now).1).totalWords = s.totalWords ∧
    ((s.updateState u now).1).words = s.words ∧
    ((s.updateState u now).1).currentPosition =
      (match u.currentPosition with
       | some p => clampPosition s.totalWords p
       | none => s.currentPosition) ∧
    ((s.updateState u now).1).isPlaying = u.isPlaying.getD s.isPlaying ∧
    ((s.updateState u now).1).isPaused = u.isPaused.getD s.isPaused := by
  rcases u with ⟨ip, ipa, cp, sp, vo⟩
  cases ip <;> cases ipa <;> cases cp <;> cases sp <;> cases vo <;>
    simp only [AudioSession.updateState, applySpeedUpdate, applyVolumeUpdate,
      validateSpeedQ, validateVolumeQ, Option.getD_some, Option.getD_none] <;>
    (try split_ifs) <;> simp_all

theorem clampPosition_bounds (tw : Nat) (p : Int) :
    0 ≤ clampPosition tw p ∧ clampPosition tw p ≤ max ((tw : Int) - 1) 0 := by
  unfold clampPosition
  omega

theorem updateState_posInv (s : AudioSession) (u : StateUpdate) (now : Nat)
    (h : PosInv s) : PosInv ((s.updateState u now).1) := by
  obtain ⟨htw, -, hcp, -, -⟩ := updateState_fields s u now
  unfold PosInv at h ⊢
  rw [htw, hcp]
  cases hu : u.currentPosition with
  | none => exact h
  | some p => exact clampPosition_bounds s.totalWords p

theorem applyUpdates_posInv (us : List (StateUpdate × Nat)) :
    ∀ (s : AudioSession), PosInv s → PosInv (applyUpdates s us) := by
  induction us with
  | nil => intro s h; exact h
  | cons u rest ih =>
    intro s h
    exact ih _ (updateState_posInv s u.1 u.2 h)

theorem applyUpdates_totalWords (us : List (StateUpdate × Nat)) :
    ∀ (s : AudioSession), (applyUpdates s us).totalWords = s.totalWords := by
  induction us with
  | nil => intro s; rfl
  | cons u rest ih =>
    intro s
    have := (updateState_fields s u.1 u.2).1
    simpa [applyUpdates] using (ih ((s.updateState u.1 u.2).1)).trans this

/-- C4.  Session position bound invariant: starting from any session
satisfying the constructor-established position invariant, after every
sequence of state updates the current position stays between 0 and
totalWords, and a supplied out-of-range position value is stored clamped
by clampPosition at the session boundary rather than as given. -/
theorem audioSession_position_bound (s : AudioSession) (h : PosInv s)
    (us : List (StateUpdate × Nat)) :
    (0 ≤ (applyUpdates s us).currentPosition ∧
      (applyUpdates s us).currentPosition ≤ ((applyUpdates s us).totalWords : Int)) ∧
    ∀ (u : StateUpdate) (now : Nat) (p : Int), u.currentPosition = some p →
      (((applyUpdates s us).updateState u now).1).currentPosition =
        clampPosition (applyUpdates s us).totalWords p := by
  have hinv := applyUpdates_posInv us s h
  unfold PosInv at hinv
  constructor
  · omega
  · intro u now p hp
    have := (updateState_fields (applyUpdates s us) u now).2.2.1
    rw [hp] at this
    exact this

theorem audioSession_position_bound_witness :
    PosInv sampleSession ∧
    ((0 ≤ (applyUpdates sampleSession [(⟨none, none, some 99, none, none⟩, 1)]).currentPosition ∧
      (applyUpdates sampleSession [(⟨none, none, some 99, none, none⟩, 1)]).currentPosition ≤
        (((applyUpdates sampleSession [(⟨none, none, some 99, none, none⟩, 1)]).totalWords : Nat) : Int)) ∧
    ∀ (u : StateUpdate) (now : Nat) (p : Int), u.currentPosition = some p →
      (((applyUpdates sampleSession [(⟨none, none, some 99, none, none⟩, 1)]).updateState u now).1).currentPosition =
        clampPosition (applyUpdates sampleSession [(⟨none, none, some 99, none, none⟩, 1)]).totalWords p) :=
  ⟨by decide, audioSession_position_bound sampleSession (by decide)
    [(⟨none, none, some 99, none, none⟩, 1)]⟩

/-- C10 counterexample.  A nonempty text with no word characters yields
totalWords 0; a start index of 5 (at least totalWords) is then stored as
0, not as totalWords minus one. -/
theorem mkAudioSession_start_counterexample :
    (((mkAudioSession (some 1) (some (("p").toList)) (("...").toList) 5 1 1
        (some 0) 1 0).toOption).map (fun s => (s.totalWords, s.currentPosition))) =
      some (0, 0) ∧
    (0 : Int) ≠ ((0 : Nat) : Int) - 1 := by decide

/-- C10 (amended).  Start-index coercion at construction: for nonempty
text and any integer start index, construction succeeds and the initial
position is silently coerced to the clamp of the start index between 0
and totalWords minus one: a negative start index yields 0, a start index
of at least totalWords yields totalWords minus one when the text has at
least one word, and the position is 0 when the text has no words. -/
theorem mkAudioSession_clamps_start (text : List Char) (start : Int)
    (h : text ≠ []) :
    ∃ s, mkAudioSession (some 1) (some (("p").toList)) text start 1 1
        (some 0) 7 0 = .ok s ∧
      s.totalWords = (extractWords text).length ∧
      s.currentPosition = max 0 (min start ((s.totalWords : Int) - 1)) ∧
      (start < 0 → s.currentPosition = 0) ∧
      (1 ≤ s.totalWords → (s.totalWords : Int) ≤ start →
        s.currentPosition = (s.totalWords : Int) - 1) ∧
      (s.totalWords = 0 → s.currentPosition = 0) ∧
      s.isPlaying = false ∧ s.isPaused = false := by
  cases text with
  | nil => exact absurd rfl h
  | cons a as =>
    refine ⟨_, rfl, rfl, rfl, ?_, ?_, ?_, rfl, rfl⟩
    · intro hneg
      simp only []
      omega
    · intro h1 hge
      simp only [] at h1 hge ⊢
      omega
    · intro h0
      simp only [] at h0 ⊢
      omega

theorem mkAudioSession_clamps_start_witness :
    ∃ s, mkAudioSession (some 1) (some (("p").toList)) (("hi yo").toList) (-3) 1 1
        (some 0) 7 0 = .ok s ∧
      s.totalWords = (extractWords (("hi yo").toList)).length ∧
      s.currentPosition = max 0 (min (-3) ((s.totalWords : Int) - 1)) ∧
      ((-3 : Int) < 0 → s.currentPosition = 0) ∧
      (1 ≤ s.totalWords → (s.totalWords : Int) ≤ (-3 : Int) →
        s.currentPosition = (s.totalWords : Int) - 1) ∧
      (s.totalWords = 0 → s.currentPosition = 0) ∧
      s.isPlaying = false ∧ s.isPaused = false :=
  mkAudioSession_clamps_start (("hi yo").toList) (-3) (by decide)

theorem calculateWordIndex_ge (charIndex : Nat) (s : AudioSession) :
    s.currentPosition ≤ calculateWordIndex charIndex s := by
  simp only [calculateWordIndex]
  omega

theorem onUtteranceBoundary_step (s : AudioSession) (h : PosInv s)
    (w : Bool) (ci now : Nat) :
    s.currentPosition ≤ (onUtteranceBoundary s w ci now).currentPosition ∧
    PosInv (onUtteranceBoundary s w ci now) := by
  cases w with
  | false => exact ⟨le_refl _, h⟩
  | true =>
    unfold onUtteranceBoundary
    simp only [if_true]
    set u : StateUpdate := ⟨none, none, some (calculateWordIndex ci s), none, none⟩ with hu
    obtain ⟨htw, -, hcp, -, -⟩ := updateState_fields s u now
    have hpos : ((s.updateState u now).1).currentPosition =
        clampPosition s.totalWords (calculateWordIndex ci s) := by
      rw [hcp]
    constructor
    · rw [hpos]
      have hge := calculateWordIndex_ge ci s
      unfold PosInv at h
      unfold clampPosition
      omega
    · exact updateState_posInv s u now h

theorem applyBoundaries_posInv (events : List (Bool × Nat × Nat)) :
    ∀ (s : AudioSession), PosInv s → PosInv (applyBoundaries s events) := by
  induction events with
  | nil => intro s h; exact h
  | cons e rest ih =>
    intro s h
    exact ih _ (onUtteranceBoundary_step s h e.1 e.2.1 e.2.2).2

/-- C9.  Boundary-update monotonicity: starting from any session
satisfying the position invariant, appending one more word-boundary
callback event (any non-negative character index, any instant) to any
sequence of such events never decreases the session position computed
through the boundary-callback path. -/
theorem boundary_position_monotone (s : AudioSession) (h : PosInv s)
    (pre : List (Bool × Nat × Nat)) (e : Bool × Nat × Nat) :
    (applyBoundaries s pre).currentPosition ≤
      (applyBoundaries s (pre ++ [e])).currentPosition := by
  have hinv := applyBoundaries_posInv pre s h
  have hstep := onUtteranceBoundary_step (applyBoundaries s pre) hinv e.1 e.2.1 e.2.2
  calc (applyBoundaries s pre).currentPosition
      ≤ (onUtteranceBoundary (applyBoundaries s pre) e.1 e.2.1 e.2.2).currentPosition :=
        hstep.1
    _ = (applyBoundaries s (pre ++ [e])).currentPosition := by
        simp [applyBoundaries, List.foldl_append]

theorem boundary_position_monotone_witness :
    PosInv sampleSession ∧
    (applyBoundaries sampleSession [(true, 5, 1)]).currentPosition ≤
      (applyBoundaries sampleSession [(true, 5, 1), (true, 2, 2)]).currentPosition :=
  ⟨by decide,
    boundary_position_monotone sampleSession (by decide) [(true, 5, 1)] (true, 2, 2)⟩

theorem lookupAssoc_updateAssoc (k : Nat) (w : AudioSession) :
    ∀ (l : List (Nat × AudioSession)) (v : AudioSession),
      lookupAssoc l k = some v → lookupAssoc (updateAssoc l k w) k = some w := by
  intro l
  induction l with
  | nil => intro v hv; simp [lookupAssoc, List.find?] at hv
  | cons p rest ih =>
    intro v hv
    rcases p with ⟨k', v'⟩
    by_cases hk : k' = k
    · subst hk
      simp [updateAssoc, lookupAssoc, List.find?]
    · have hne : (k' == k) = false := by simp [hk]
      simp only [updateAssoc, hne, Bool.false_eq_true, if_false]
      simp only [lookupAssoc, List.find?, hne] at hv ⊢
      exact ih v hv

/-- C3.  On the end-of-utterance callback the session is marked not
playing and not paused and the adapter releases engine focus, but the
stored position is clamped to totalWords minus one (here 2), not
totalWords (here 3): the handler passes totalWords and updateState
clamps it, contradicting the documented invariant that currentPosition
can reach totalWords and making AudioSession.isComplete unreachable. -/
theorem onUtteranceEnd_clamps_position :
    sampleSession.totalWords = 3 ∧
    ((onUtteranceEnd focusController sampleSession 5).2).currentPosition = 2 ∧
    ((onUtteranceEnd focusController sampleSession 5).2).currentPosition ≠
      ((sampleSession.totalWords : Nat) : Int) ∧
    ((onUtteranceEnd focusController sampleSession 5).2).isPlaying = false ∧
    ((onUtteranceEnd focusController sampleSession 5).2).isPaused = false ∧
    ((onUtteranceEnd focusController sampleSession 5).1).currentUtterance = none ∧
    ((onUtteranceEnd focusController sampleSession 5).1).currentSessionId = none := by
  decide

theorem updateAssoc_updateAssoc (k : Nat) (v w : AudioSession) :
    ∀ (l : List (Nat × AudioSession)),
      updateAssoc (updateAssoc l k v) k w = updateAssoc l k w := by
  intro l
  induction l with
  | nil => rfl
  | cons p rest ih =>
    rcases p with ⟨k', v'⟩
    by_cases hk : k' = k
    · subst hk; simp [updateAssoc]
    · have hne : (k' == k) = false := by simp [hk]
      simp [updateAssoc, hne, ih]

theorem updateState_pause (s : AudioSession) (t : Nat) :
    s.updateState ⟨some false, some true, none, none, none⟩ t =
      ({ s with isPlaying := false, isPaused := true, lastActiveAt := t }, none) := rfl

/-- C5.  Pause idempotence and resume guard: for a registered session,
pauseSpeech succeeds and stores the session with isPlaying false and
isPaused true; pausing a second time succeeds and leaves the controller
in exactly the state a single pause at that instant produces; and
resumeSpeech on a session that is not paused fails with the
invalid-state error and leaves the controller (hence the session flags)
unchanged. -/
theorem pause_idempotent_resume_guard (ctrl : SpeechController) (sid : Nat)
    (s : AudioSession) (h : lookupSession ctrl sid = some s) (t1 t2 : Nat) :
    (pauseSpeech ctrl sid t1).2 = none ∧
    lookupSession (pauseSpeech ctrl sid t1).1 sid =
      some { s with isPlaying := false, isPaused := true, lastActiveAt := t1 } ∧
    (pauseSpeech (pauseSpeech ctrl sid t1).1 sid t2).2 = none ∧
    (pauseSpeech (pauseSpeech ctrl sid t1).1 sid t2).1 = (pauseSpeech ctrl sid t2).1 ∧
    (s.isPaused = false → ∀ (ep : Bool) (t : Nat),
      resumeSpeech ctrl sid ep t = (ctrl, some .invalidState)) := by
  have hps : ∀ (c : SpeechController) (w : AudioSession) (t : Nat),
      lookupSession c sid = some w →
      pauseSpeech c sid t =
        ({ c with
            activeSessions :=
              updateAssoc c.activeSessions sid
                { w with isPlaying := false, isPaused := true, lastActiveAt := t } },
          none) := by
    intro c w t hw
    simp only [pauseSpeech, hw, updateState_pause]
  have h1 := hps ctrl s t1 h
  have hl1 : lookupSession (pauseSpeech ctrl sid t1).1 sid =
      some { s with isPlaying := false, isPaused := true, lastActiveAt := t1 } := by
    rw [h1]
    exact lookupAssoc_updateAssoc sid _ ctrl.activeSessions s h
  have h2 := hps ctrl s t2 h
  have h3 := hps (pauseSpeech ctrl sid t1).1 _ t2 hl1
  refine ⟨?_, hl1, ?_, ?_, ?_⟩
  · rw [h1]
  · rw [h3]
  · rw [h3, h2, h1, updateAssoc_updateAssoc]
  · intro hp ep t
    simp only [resumeSpeech, h, hp, Bool.not_false, if_true]

theorem pause_idempotent_resume_guard_witness :
    lookupSession oneSessionController 7 = some sampleSession ∧
    ((pauseSpeech oneSessionController 7 1).2 = none ∧
    lookupSession (pauseSpeech oneSessionController 7 1).1 7 =
      some { sampleSession with isPlaying := false, isPaused := true, lastActiveAt := 1 } ∧
    (pauseSpeech (pauseSpeech oneSessionController 7 1).1 7 2).2 = none ∧
    (pauseSpeech (pauseSpeech oneSessionController 7 1).1 7 2).1 =
      (pauseSpeech oneSessionController 7 2).1 ∧
    (sampleSession.isPaused = false → ∀ (ep : Bool) (t : Nat),
      resumeSpeech oneSessionController 7 ep t =
        (oneSessionController, some .invalidState))) :=
  ⟨by decide, pause_idempotent_resume_guard oneSessionController 7 sampleSession
    (by decide) 1 2⟩

/-- C6.  Speed and volume validation atomicity: for a registered
session, setSpeed with a value outside the closed range from one half to
two is rejected with the speed range error and the controller state is
returned unchanged (so the session's speed keeps its prior value, with
no clamping), and setVolume with a value outside the closed range from
zero to one is rejected with the volume range error and the controller
state is returned unchanged. -/
theorem setSpeed_setVolume_validation (ctrl : SpeechController) (sid : Nat)
    (s : AudioSession) (h : lookupSession ctrl sid = some s) :
    (∀ (v : ℚ) (es ep : Bool) (now : Nat), v < mkRat 1 2 ∨ v > 2 →
      setSpeed ctrl sid v es ep now = (ctrl, some .speedOutOfRange)) ∧
    (∀ (v : ℚ) (now : Nat), v < 0 ∨ v > 1 →
      setVolume ctrl sid v now = (ctrl, some .volumeOutOfRange)) := by
  constructor
  · intro v es ep now hv
    simp only [setSpeed, h]
    rw [if_pos hv]
  · intro v now hv
    simp only [setVolume, h]
    rw [if_pos hv]

theorem setSpeed_setVolume_validation_witness :
    lookupSession oneSessionController 7 = some sampleSession ∧
    (mkRat 5 2 < mkRat 1 2 ∨ mkRat 5 2 > 2) ∧
    ((3 : ℚ) < 0 ∨ (3 : ℚ) > 1) ∧
    setSpeed oneSessionController 7 (mkRat 5 2) false false 4 =
      (oneSessionController, some .speedOutOfRange) ∧
    setVolume oneSessionController 7 3 4 =
      (oneSessionController, some .volumeOutOfRange) :=
  ⟨by decide, by decide, by decide,
    (setSpeed_setVolume_validation oneSessionController 7 sampleSession (by decide)).1
      (mkRat 5 2) false false 4 (by decide),
    (setSpeed_setVolume_validation oneSessionController 7 sampleSession (by decide)).2
      3 4 (by decide)⟩

/-- C7.  Session limit enforcement: with the registry holding exactly 10
sessions and the limit at its constructor value 10, a valid start
request on a supported platform fails with the session-limit error
before any session is created (whatever the voice availability), the
controller state is returned unchanged, and the registry count remains
10. -/
theorem startSpeech_session_limit (ctrl : SpeechController)
    (r : StartSpeechRequest) (voiceAvailable : Bool) (newId now : Nat)
    (hvalid : validateStartRequest r = none)
    (hcount : ctrl.activeSessions.length = 10)
    (hmax : ctrl.maxConcurrentSessions = 10) :
    startSpeech ctrl r true voiceAvailable newId now =
      (ctrl, .error (.sessionLimit 10)) ∧
    ((startSpeech ctrl r true voiceAvailable newId now).1).activeSessions.length = 10 := by
  have hge : ctrl.activeSessions.length ≥ ctrl.maxConcurrentSessions := by omega
  have hmain : startSpeech ctrl r true voiceAvailable newId now =
      (ctrl, .error (.sessionLimit 10)) := by
    simp [startSpeech, hvalid, hge, hmax]
    intro h10
    exact absurd h10 (by omega)
  refine ⟨hmain, ?_⟩
  rw [hmain]
  exact hcount

theorem startSpeech_session_limit_witness :
    validateStartRequest sampleRequest = none ∧
    tenSessionController.activeSessions.length = 10 ∧
    startSpeech tenSessionController sampleRequest true false 99 0 =
      (tenSessionController, .error (.sessionLimit 10)) :=
  ⟨by decide, by decide,
    (startSpeech_session_limit tenSessionController sampleRequest false 99 0
      (by decide) (by decide) (by decide)).1⟩

theorem mkRat_one_two : (mkRat 1 2 : ℚ) = 1/2 := by
  norm_num [mkRat]

/-- C8 counterexample.  A candidate whose summed link text is longer
than its trimmed text (link density 3) drives the claimed formula
negative, while the implementation clamps the score at 0, so the score
does not equal the claimed formula there. -/
theorem calculateContentScore_not_claim_formula :
    calculateContentScore 1 0 3 0 = 0 ∧
    contentScoreClaimFormula 1 0 3 0 = -(2/25) ∧
    calculateContentScore 1 0 3 0 ≠ contentScoreClaimFormula 1 0 3 0 := by
  refine ⟨?_, ?_, ?_⟩ <;>
    norm_num [calculateContentScore, contentScoreClaimFormula, mkRat_one_two]

/-- C8 (amended).  The content density score equals the claimed formula
clamped below at zero: textLength over 25 plus 25 per paragraph,
multiplied by one minus linkDensity when linkDensity exceeds one half,
halved for a crowded low-density container, and finally clamped at 0, so
the result is never negative. -/
theorem calculateContentScore_eq_clamped (tl pc lt ce : Nat) :
    calculateContentScore tl pc lt ce =
      max 0 (contentScoreClaimFormula tl pc lt ce) ∧
    0 ≤ calculateContentScore tl pc lt ce := by
  have hld : (if tl > 0 then (lt : ℚ) / (tl : ℚ) else 0) = (lt : ℚ) / (tl : ℚ) := by
    by_cases h : tl > 0
    · simp [h]
    · have h0 : tl = 0 := by omega
      simp [h0]
  have hbase : (0 : ℚ) + (tl : ℚ) / 25 + (pc : ℚ) * 25 =
      (tl : ℚ) / 25 + 25 * (pc : ℚ) := by ring
  constructor
  · unfold calculateContentScore contentScoreClaimFormula
    rw [hld]
    dsimp only
    rw [hbase]
  · unfold calculateContentScore
    exact le_max_left 0 _

end Reader
